import Mathlib

/-!
Verification development for the Coordinator data synchronization core.

The definitions below are a shallow embedding of the JavaScript sources:
  • src/services/dataTransformers.js  (arrayToFirebaseObject, firebaseObjectToArray)
  • src/services/storageService.js    (StorageService: day-based get/set, migration, import)
  • src/services/firebaseService.js   (FirebaseService: connection monitor, day subscriptions)
  • src/hooks/useTheatreData.js       (subscription callback and persist effect)

JavaScript objects used as string-keyed maps are embedded as association
lists in insertion order; `Option` marks a key that may be absent
(JS `undefined`/`null`); fallible remote operations return an explicit
result flag together with the post state.
-/

namespace Coordinator

/-- Day tokens, as produced by getAllDays in src/utils/dateUtils.js. -/
inductive Day where
  | monday | tuesday | wednesday | thursday | friday | saturday | sunday
deriving DecidableEq, Repr

/-- getAllDays from src/utils/dateUtils.js: all seven day names, Monday first. -/
def getAllDays : List Day :=
  [Day.monday, Day.tuesday, Day.wednesday, Day.thursday, Day.friday,
   Day.saturday, Day.sunday]

/-- A theatre record, with the fields used by useTheatreData.js. -/
structure Theatre where
  name : String
  currentOdp : String
  theatreEta : String
  practitionerEndTime : String
  nextPractitioner : String
  status : String
  phoneExtension : String
  order : Nat
deriving DecidableEq, Repr

/-- A practitioner record, with the fields used by usePractitionerData.js. -/
structure Practitioner where
  name : String
  endTime : String
  relieved : Bool
  supper : Bool
deriving DecidableEq, Repr

/-- A remote map entry: the theatre record together with the lastUpdated
stamp that arrayToFirebaseObject adds. -/
structure Stamped where
  item : Theatre
  lastUpdated : Nat
deriving DecidableEq, Repr

/-- The remote representation of a day collection: a string-keyed map,
embedded as an association list in insertion order. -/
abbrev FbMap := List (String × Stamped)

/-- Assignment `m[k] = v` on a JS object: replace the value of an existing
key in place, otherwise append the new key at the end. -/
def assocSet {κ α : Type} [DecidableEq κ] : List (κ × α) → κ → α → List (κ × α)
  | [], k, v => [(k, v)]
  | p :: rest, k, v => if p.1 = k then (k, v) :: rest else p :: assocSet rest k v

/-- Key lookup `m[k]` on a JS object: `none` when the key is absent. -/
def assocGet {κ α : Type} [DecidableEq κ] : List (κ × α) → κ → Option α
  | [], _ => none
  | p :: rest, k => if p.1 = k then some p.2 else assocGet rest k

/-- One step of the reduce in arrayToFirebaseObject
(src/services/dataTransformers.js): a record whose key field is falsy
(empty name) is skipped, otherwise it is stored under its name with a
lastUpdated stamp. -/
def a2fStep (now : Nat) (acc : FbMap) (item : Theatre) : FbMap :=
  if item.name = "" then acc else assocSet acc item.name ⟨item, now⟩

/-- arrayToFirebaseObject from src/services/dataTransformers.js with the
default key field name, at a fixed clock reading `now`. -/
def arrayToFirebaseObject (now : Nat) (array : List Theatre) : FbMap :=
  array.foldl (a2fStep now) []

/-- firebaseObjectToArray from src/services/dataTransformers.js: `none`
(JS null) becomes the empty list, otherwise the values are taken in order
and the lastUpdated stamp is stripped from each. -/
def firebaseObjectToArray (obj : Option FbMap) : List Theatre :=
  match obj with
  | none => []
  | some m => m.map (fun p => p.2.item)

theorem assocGet_assocSet {κ α : Type} [DecidableEq κ]
    (m : List (κ × α)) (k : κ) (v : α) :
    assocGet (assocSet m k v) k = some v := by
  induction m with
  | nil => simp [assocSet, assocGet]
  | cons p rest ih =>
    by_cases h : p.1 = k
    · simp [assocSet, assocGet, h]
    · simp [assocSet, assocGet, h, ih]

theorem assocSet_fresh {κ α : Type} [DecidableEq κ]
    (m : List (κ × α)) (k : κ) (v : α) (h : k ∉ m.map Prod.fst) :
    assocSet m k v = m ++ [(k, v)] := by
  induction m with
  | nil => simp [assocSet]
  | cons p rest ih =>
    simp only [List.map_cons, List.mem_cons, not_or] at h
    have hne : ¬ p.1 = k := fun hh => h.1 hh.symm
    simp [assocSet, hne, ih h.2]

/-- Running the reduce of arrayToFirebaseObject from an accumulator whose
keys avoid every nonempty record name appends the surviving records in
order, keyed by name and stamped with `now`. -/
theorem a2f_foldl (now : Nat) :
    ∀ (l : List Theatre) (acc : FbMap),
      ((l.filter (fun t => t.name ≠ "")).map Theatre.name).Nodup →
      (∀ t ∈ l, t.name ≠ "" → t.name ∉ acc.map Prod.fst) →
      l.foldl (a2fStep now) acc
        = acc ++ (l.filter (fun t => t.name ≠ "")).map (fun t => (t.name, ⟨t, now⟩)) := by
  intro l
  induction l with
  | nil => intro acc _ _; simp
  | cons t rest ih =>
    intro acc hnd hfresh
    by_cases hname : t.name = ""
    · have hfilter : (t :: rest).filter (fun t => t.name ≠ "")
          = rest.filter (fun t => t.name ≠ "") := by
        simp [List.filter_cons, hname]
      rw [List.foldl_cons]
      have hstep : a2fStep now acc t = acc := by simp [a2fStep, hname]
      rw [hstep, hfilter]
      rw [hfilter] at hnd
      exact ih acc hnd (fun u hu hne => hfresh u (List.mem_cons_of_mem t hu) hne)
    · have hfilter : (t :: rest).filter (fun t => t.name ≠ "")
          = t :: rest.filter (fun t => t.name ≠ "") := by
        simp [List.filter_cons, hname]
      rw [hfilter] at hnd
      simp only [List.map_cons, List.nodup_cons] at hnd
      rw [List.foldl_cons]
      have hstep : a2fStep now acc t = acc ++ [(t.name, ⟨t, now⟩)] := by
        simp only [a2fStep, if_neg hname]
        exact assocSet_fresh acc t.name ⟨t, now⟩
          (hfresh t (List.mem_cons_self t rest) hname)
      rw [hstep]
      have hfresh2 : ∀ u ∈ rest, u.name ≠ ""
          → u.name ∉ (acc ++ [(t.name, (⟨t, now⟩ : Stamped))]).map Prod.fst := by
        intro u hu hne
        simp only [List.map_append, List.mem_append, List.map_cons, List.map_nil,
          List.mem_singleton, not_or]
        refine ⟨hfresh u (List.mem_cons_of_mem t hu) hne, ?_⟩
        intro heq
        apply hnd.1
        rw [← heq]
        exact List.mem_map_of_mem Theatre.name
          (List.mem_filter.mpr ⟨hu, by simp [hne]⟩)
      have hrest := ih (acc ++ [(t.name, (⟨t, now⟩ : Stamped))]) hnd.2 hfresh2
      rw [hrest, hfilter]
      simp

/-- Round trip through the remote map form keeps exactly the records whose
name is nonempty, in their original order, with all fields intact. -/
theorem roundtrip_filter (now : Nat) (l : List Theatre)
    (hnd : ((l.filter (fun t => t.name ≠ "")).map Theatre.name).Nodup) :
    firebaseObjectToArray (some (arrayToFirebaseObject now l))
      = l.filter (fun t => t.name ≠ "") := by
  unfold firebaseObjectToArray arrayToFirebaseObject
  rw [a2f_foldl now l [] hnd (by simp)]
  simp only [List.nil_append, List.map_map]
  have hid : ((fun p : String × Stamped => p.2.item)
      ∘ fun t : Theatre => (t.name, (⟨t, now⟩ : Stamped))) = id := by
    funext t
    rfl
  rw [hid, List.map_id]

/-- Every entry of the remote map built by arrayToFirebaseObject carries
the lastUpdated stamp taken at conversion time. -/
theorem a2f_stamps (now : Nat) (l : List Theatre)
    (hnd : ((l.filter (fun t => t.name ≠ "")).map Theatre.name).Nodup) :
    ∀ p ∈ arrayToFirebaseObject now l, p.2.lastUpdated = now := by
  intro p hp
  unfold arrayToFirebaseObject at hp
  rw [a2f_foldl now l [] hnd (by simp)] at hp
  simp only [List.nil_append, List.mem_map] at hp
  obtain ⟨t, _, ht⟩ := hp
  rw [← ht]

/-- Highlight rule toggles stored under the highlightSettings key. -/
structure HighlightSettings where
  highlightEarlies : Bool
  highlight1730s : Bool
  highlight1830s : Bool
  highlightLates : Bool
deriving DecidableEq, Repr

/-- The browser localStorage as seen through StorageService: one typed slot
per logical key, `none` meaning the key is absent. -/
structure LocalCache where
  theatreData : Option (List Theatre)
  practitionerListData : Option (List Practitioner)
  theatresByDay : Option (List (Day × List Theatre))
  practitionersByDay : Option (List (Day × List Practitioner))
  rosterDatesByDay : Option (List (Day × Option String))
  selectedDay : Option Day
  theme : Option String
  highlightSettings : Option HighlightSettings
  theatreData_legacy : Option (List Theatre)
  practitionerListData_legacy : Option (List Practitioner)
deriving DecidableEq, Repr

/-- A LocalCache with no keys present. -/
def emptyCache : LocalCache :=
  { theatreData := none, practitionerListData := none, theatresByDay := none,
    practitionersByDay := none, rosterDatesByDay := none, selectedDay := none,
    theme := none, highlightSettings := none, theatreData_legacy := none,
    practitionerListData_legacy := none }

/-- StorageService mode field: firebase or localStorage. -/
inductive Mode where
  | firebase
  | localStorage
deriving DecidableEq, Repr

/-- isFirebaseAvailable from src/services/storageService.js: the mode is
firebase and the connection monitor currently reports connected. -/
def isFirebaseAvailable (mode : Mode) (connected : Bool) : Bool :=
  decide (mode = Mode.firebase) && connected

/-- Outcome of setTheatresForDay: normal return, or the rethrown remote
write error. -/
inductive SetResult where
  | ok
  | remoteWriteError
deriving DecidableEq, Repr

/-- Combined state of the two stores: the localStorage cache, the remote
theatresByDay tree, and a counter of remote operations attempted. -/
structure World where
  cache : LocalCache
  remoteTheatresByDay : List (Day × FbMap)
  remoteCalls : Nat
deriving DecidableEq, Repr

/-- A World with empty cache and empty remote store. -/
def emptyWorld : World := ⟨emptyCache, [], 0⟩

/-- StorageService.setTheatresForDay (src/services/storageService.js).
`writeOk` injects the outcome of the remote write. When Firebase is
available, the remote store is written first; only on success is the value
mirrored into the theatresByDay cache key; on failure the error is
rethrown and the cache is not touched. When unavailable, only the cache is
written. Every attempted remote operation bumps remoteCalls. -/
def setTheatresForDay (mode : Mode) (connected : Bool) (writeOk : Bool)
    (now : Nat) (w : World) (day : Day) (arr : List Theatre) :
    World × SetResult :=
  if isFirebaseAvailable mode connected then
    if writeOk then
      let remote1 := assocSet w.remoteTheatresByDay day (arrayToFirebaseObject now arr)
      let allData := w.cache.theatresByDay.getD []
      let cache1 := { w.cache with theatresByDay := some (assocSet allData day arr) }
      ({ cache := cache1, remoteTheatresByDay := remote1,
         remoteCalls := w.remoteCalls + 1 }, SetResult.ok)
    else
      ({ w with remoteCalls := w.remoteCalls + 1 }, SetResult.remoteWriteError)
  else
    let allData := w.cache.theatresByDay.getD []
    ({ w with cache := { w.cache with theatresByDay := some (assocSet allData day arr) } },
     SetResult.ok)

/-- StorageService.getTheatresForDay (src/services/storageService.js), on
the path where an available remote store answers: the remote value is
converted, mirrored into the theatresByDay cache key and returned; when
Firebase is unavailable the value comes from the cache, an absent key
giving the empty list. -/
def getTheatresForDay (mode : Mode) (connected : Bool)
    (w : World) (day : Day) : World × List Theatre :=
  if isFirebaseAvailable mode connected then
    let raw := assocGet w.remoteTheatresByDay day
    let firebaseData := firebaseObjectToArray raw
    let data := w.cache.theatresByDay.getD []
    let cache1 := { w.cache with theatresByDay := some (assocSet data day firebaseData) }
    ({ cache := cache1, remoteTheatresByDay := w.remoteTheatresByDay,
       remoteCalls := w.remoteCalls + 1 }, firebaseData)
  else
    (w, (assocGet (w.cache.theatresByDay.getD []) day).getD [])

/-- C1: in remote mode while reachable, setForDay writes the remote store
and mirrors the value into the theatresByDay cache key only when the
remote write succeeds; when the remote write fails it reports the remote
write error and leaves the cache exactly as before, so a successful write
of one list followed by a failed write of another leaves the cache holding
the first list. -/
theorem c1_set_remote_first_no_cache_on_failure
    (now now2 : Nat) (w : World) (day : Day) (v v2 : List Theatre) :
    ((setTheatresForDay Mode.firebase true true now w day v).2 = SetResult.ok
      ∧ assocGet (setTheatresForDay Mode.firebase true true now w day v).1.remoteTheatresByDay day
          = some (arrayToFirebaseObject now v)
      ∧ assocGet ((setTheatresForDay Mode.firebase true true now w day v).1.cache.theatresByDay.getD []) day
          = some v)
    ∧ ((setTheatresForDay Mode.firebase true false now w day v).2 = SetResult.remoteWriteError
      ∧ (setTheatresForDay Mode.firebase true false now w day v).1.cache = w.cache)
    ∧ assocGet ((setTheatresForDay Mode.firebase true false now2
          (setTheatresForDay Mode.firebase true true now w day v).1 day v2).1.cache.theatresByDay.getD [])
        day = some v := by
  refine ⟨⟨?_, ?_, ?_⟩, ⟨?_, ?_⟩, ?_⟩ <;>
    simp [setTheatresForDay, isFirebaseAvailable, assocGet_assocSet]

/-- C7: while the connectivity monitor reports unreachable, setForDay
succeeds unconditionally, touches neither the remote store nor the remote
call counter, and a subsequent getForDay while still unreachable returns
the value just written, read from the cache with no remote call. -/
theorem c7_offline_set_then_get (mode : Mode) (writeOk : Bool) (now : Nat)
    (w : World) (day : Day) (v : List Theatre) :
    (setTheatresForDay mode false writeOk now w day v).2 = SetResult.ok
    ∧ (setTheatresForDay mode false writeOk now w day v).1.remoteTheatresByDay
        = w.remoteTheatresByDay
    ∧ (setTheatresForDay mode false writeOk now w day v).1.remoteCalls = w.remoteCalls
    ∧ (getTheatresForDay mode false (setTheatresForDay mode false writeOk now w day v).1 day).2 = v
    ∧ (getTheatresForDay mode false (setTheatresForDay mode false writeOk now w day v).1 day).1.remoteCalls
        = w.remoteCalls := by
  refine ⟨?_, ?_, ?_, ?_, ?_⟩ <;>
    simp [setTheatresForDay, getTheatresForDay, isFirebaseAvailable, assocGet_assocSet]

/-- C8: for a list of records with pairwise distinct nonempty names,
converting to the remote map form and back yields the original records
with every field intact; the inbound conversion stamps every entry with a
lastUpdated timestamp, which the outbound conversion strips. -/
theorem c8_conversion_roundtrip (now : Nat) (l : List Theatre)
    (hne : ∀ t ∈ l, t.name ≠ "") (hnd : (l.map Theatre.name).Nodup) :
    firebaseObjectToArray (some (arrayToFirebaseObject now l)) = l
    ∧ ∀ p ∈ arrayToFirebaseObject now l, p.2.lastUpdated = now := by
  have hf : l.filter (fun t => t.name ≠ "") = l :=
    List.filter_eq_self.mpr (by intro a ha; simpa using hne a ha)
  constructor
  · rw [roundtrip_filter now l (by rw [hf]; exact hnd), hf]
  · exact a2f_stamps now l (by rw [hf]; exact hnd)

def sampleTheatreA : Theatre :=
  ⟨"Theatre E1", "A Smith", "10:00", "17:30", "B Jones", "Running", "1234", 0⟩

def sampleTheatreB : Theatre :=
  ⟨"Theatre E2", "", "", "", "", "Not Running", "", 1⟩

theorem c8_conversion_roundtrip_witness :
    firebaseObjectToArray (some (arrayToFirebaseObject 7 [sampleTheatreA, sampleTheatreB]))
      = [sampleTheatreA, sampleTheatreB] :=
  (c8_conversion_roundtrip 7 [sampleTheatreA, sampleTheatreB] (by decide) (by decide)).1

/-- C10: in reachable remote mode, a set of a list in which some record
has an empty name succeeds with no error; the conversion silently omits
that record, and a subsequent getForDay returns the list restricted to the
records with nonempty names. -/
theorem c10_empty_name_silently_omitted (now : Nat) (w : World) (day : Day)
    (v : List Theatre)
    (hnd : ((v.filter (fun t => t.name ≠ "")).map Theatre.name).Nodup)
    (hsome : ∃ t ∈ v, t.name = "") :
    (setTheatresForDay Mode.firebase true true now w day v).2 = SetResult.ok
    ∧ (getTheatresForDay Mode.firebase true
        (setTheatresForDay Mode.firebase true true now w day v).1 day).2
        = v.filter (fun t => t.name ≠ "")
    ∧ v.filter (fun t => t.name ≠ "") ≠ v := by
  refine ⟨?_, ?_, ?_⟩
  · simp [setTheatresForDay, isFirebaseAvailable]
  · have hget : assocGet (setTheatresForDay Mode.firebase true true now w day v).1.remoteTheatresByDay day
        = some (arrayToFirebaseObject now v) := by
      simp [setTheatresForDay, isFirebaseAvailable, assocGet_assocSet]
    simp only [getTheatresForDay, isFirebaseAvailable]
    rw [if_pos (by decide)]
    simp only [hget]
    exact roundtrip_filter now v hnd
  · intro heq
    obtain ⟨t, ht, hname⟩ := hsome
    have hmem : t ∈ v.filter (fun t => t.name ≠ "") := by rw [heq]; exact ht
    have := (List.mem_filter.mp hmem).2
    simp [hname] at this

def noNameTheatre : Theatre := ⟨"", "C Doe", "", "", "", "Running", "", 5⟩

def c10List : List Theatre := [sampleTheatreA, noNameTheatre, sampleTheatreB]

theorem c10_empty_name_silently_omitted_witness :
    (setTheatresForDay Mode.firebase true true 3 emptyWorld Day.monday c10List).2 = SetResult.ok
    ∧ (getTheatresForDay Mode.firebase true
        (setTheatresForDay Mode.firebase true true 3 emptyWorld Day.monday c10List).1 Day.monday).2
        = [sampleTheatreA, sampleTheatreB] := by
  have h := c10_empty_name_silently_omitted 3 emptyWorld Day.monday c10List
    (by decide) (by decide)
  refine ⟨h.1, ?_⟩
  rw [h.2.1]
  decide

/-- FirebaseService monitor state: the cached isConnected boolean
(src/services/firebaseService.js). -/
structure ConnMonitor where
  isConnected : Bool
deriving DecidableEq, Repr

/-- One delivery on the reserved connectivity path, as handled inside
initConnectionMonitor: the previous boolean is saved, the new one is
computed from the raw snapshot value by strict comparison with true, and
the registered callbacks are notified exactly when the state goes from
disconnected to connected. The returned flag records whether the
callbacks were invoked. -/
def connectionPush (m : ConnMonitor) (raw : Option Bool) : ConnMonitor × Bool :=
  let wasConnected := m.isConnected
  let nowConnected := decide (raw = some true)
  (⟨nowConnected⟩, !wasConnected && nowConnected)

/-- Process a list of connectivity pushes, counting how many of them
invoked the registered callbacks. -/
def runPushes (m : ConnMonitor) : List (Option Bool) → ConnMonitor × Nat
  | [] => (m, 0)
  | r :: rs =>
    let step := connectionPush m r
    let rest := runPushes step.1 rs
    (rest.1, (if step.2 then 1 else 0) + rest.2)

/-- Number of strict false-to-true edges in a boolean trace starting from
a given previous value. -/
def countRisingEdges (prev : Bool) : List Bool → Nat
  | [] => 0
  | b :: bs => (if !prev && b then 1 else 0) + countRisingEdges b bs

/-- C4: the monitor notifies its reconnection listeners exactly on
transitions of the connectivity boolean from false to true; over any
sequence of pushes the number of notifications equals the number of
rising edges of the decoded boolean trace, so a push repeating the
current value, in particular connected followed by connected, notifies
nobody, while a genuine reconnection does. -/
theorem c4_notify_exactly_on_rising_edges (m : ConnMonitor)
    (pushes : List (Option Bool)) :
    (runPushes m pushes).2
      = countRisingEdges m.isConnected (pushes.map (fun r => decide (r = some true)))
    ∧ (connectionPush ⟨true⟩ (some true)).2 = false
    ∧ (connectionPush ⟨false⟩ (some true)).2 = true := by
  refine ⟨?_, by decide, by decide⟩
  induction pushes generalizing m with
  | nil => rfl
  | cons r rs ih =>
    simp only [runPushes, List.map_cons, countRisingEdges, connectionPush]
    rw [ih ⟨decide (r = some true)⟩]

/-- The onValue handler installed by subscribeToTheatresForDay
(src/services/firebaseService.js): it converts the delivered raw map with
firebaseObjectToArray and passes the result to the subscriber callback; it
performs no store operation of its own, so the world at the moment the
callback runs is the world at delivery time. The pair is (state visible to
the callback, argument passed to the callback). -/
def theatreSubscriptionDeliver (w : World) (raw : Option FbMap) :
    World × List Theatre :=
  (w, firebaseObjectToArray raw)

/-- C3 counterexample: with an empty local cache, delivering a one-record
remote value hands the converted record list to the callback while the
theatresByDay cache key is still absent, so the delivered value was not
mirrored into the local cache before the callback was invoked. -/
theorem c3_counterexample :
    (theatreSubscriptionDeliver emptyWorld
        (some [("Theatre E1", ⟨sampleTheatreA, 5⟩)])).2 = [sampleTheatreA]
    ∧ (theatreSubscriptionDeliver emptyWorld
        (some [("Theatre E1", ⟨sampleTheatreA, 5⟩)])).1.cache.theatresByDay = none := by
  constructor
  · rfl
  · rfl

/-- C3 amended: a subscription delivery leaves the local cache (indeed the
whole world) unchanged and invokes the callback with exactly the converted
delivered value; mirroring into the cache happens only in getForDay and
setForDay, not on subscription deliveries. -/
theorem c3_amended_delivery_does_not_mirror (w : World) (raw : Option FbMap) :
    (theatreSubscriptionDeliver w raw).1.cache = w.cache
    ∧ (theatreSubscriptionDeliver w raw).2 = firebaseObjectToArray raw :=
  ⟨rfl, rfl⟩

/-- In-memory state of the useTheatreData hook
(src/hooks/useTheatreData.js): the theatres state slot, the one-shot
isFirebaseUpdate suppression flag, the last known active day, the loading
flag, and a counter of setTheatresForDay invocations made by the persist
effect. -/
structure HookState where
  theatres : List Theatre
  isFirebaseUpdate : Bool
  previousDay : Day
  isLoading : Bool
  saveCount : Nat
deriving DecidableEq, Repr

/-- Stable insertion of a theatre into a list sorted by the order field. -/
def insertByOrder (t : Theatre) : List Theatre → List Theatre
  | [] => [t]
  | u :: rest => if u.order ≤ t.order then u :: insertByOrder t rest else t :: u :: rest

/-- The sort-by-order step applied to every incoming list in
useTheatreData.js before it is stored in the state slot. -/
def sortByOrder (v : List Theatre) : List Theatre :=
  v.foldl (fun acc t => insertByOrder t acc) []

/-- The persist effect of useTheatreData.js: if the one-shot
isFirebaseUpdate flag is set, clear it and skip the save; else if the
active day changed, record the new day and skip the save; else, unless
still loading, call setTheatresForDay (counted in saveCount). -/
def persistEffect (day : Day) (h : HookState) : HookState :=
  if h.isFirebaseUpdate then { h with isFirebaseUpdate := false }
  else if h.previousDay ≠ day then { h with previousDay := day }
  else if !h.isLoading then { h with saveCount := h.saveCount + 1 }
  else h

/-- One value delivered through the subscribeToTheatresForDay callback in
useTheatreData.js: a nonempty list sets the isFirebaseUpdate flag, stores
the sorted list in the state slot, and the state change makes the persist
effect run once; an empty delivery changes no state, so the persist effect
does not rerun. -/
def applyDelivery (day : Day) (h : HookState) (v : List Theatre) : HookState :=
  if v.length > 0 then
    persistEffect day { h with isFirebaseUpdate := true, theatres := sortByOrder v }
  else h

/-- Deliver a sequence of remote values to the hook, with no interleaved
local mutation. -/
def deliverAll (day : Day) (h : HookState) : List (List Theatre) → HookState
  | [] => h
  | v :: vs => deliverAll day (applyDelivery day h v) vs

/-- C2: a sequence of values delivered through the subscription callback
with no interleaved local mutation never reaches the save branch of the
persist effect: each applied delivery sets the one-shot isFirebaseUpdate
flag first, and the persist effect consumes the flag instead of saving, so
the setTheatresForDay invocation count is unchanged after any number of
remote deliveries. -/
theorem c2_remote_deliveries_are_never_echoed (day : Day) (h : HookState)
    (vs : List (List Theatre)) :
    (deliverAll day h vs).saveCount = h.saveCount := by
  induction vs generalizing h with
  | nil => rfl
  | cons v vs ih =>
    have hstep : (applyDelivery day h v).saveCount = h.saveCount := by
      unfold applyDelivery persistEffect
      split
      · simp
      · rfl
    simp only [deliverAll]
    rw [ih (applyDelivery day h v), hstep]

/-- StorageService.migrateToWeeklyStructure
(src/services/storageService.js): when some legacy flat key exists and the
day-partitioned theatresByDay key does not, build the day-partitioned
structures assigning the legacy records to the bucket of the current
wall-clock day and empty lists elsewhere, record the selected day, and
copy each present legacy key to its _legacy backup; otherwise do nothing. -/
def migrateToWeeklyStructure (today : Day) (c : LocalCache) : LocalCache :=
  if (c.theatreData.isSome || c.practitionerListData.isSome) && c.theatresByDay.isNone then
    let theatresByDay := getAllDays.map (fun day =>
      (day, if decide (day = today) && c.theatreData.isSome then c.theatreData.getD [] else []))
    let practitionersByDay := getAllDays.map (fun day =>
      (day, if decide (day = today) && c.practitionerListData.isSome
            then c.practitionerListData.getD [] else []))
    let c1 := { c with theatresByDay := some theatresByDay,
                       practitionersByDay := some practitionersByDay,
                       selectedDay := some today }
    let c2 := if c.theatreData.isSome
              then { c1 with theatreData_legacy := c.theatreData } else c1
    if c.practitionerListData.isSome
    then { c2 with practitionerListData_legacy := c.practitionerListData } else c2
  else c

/-- Precondition of the migration: a legacy flat key exists and the
day-partitioned theatresByDay key does not. -/
def migrationPre (c : LocalCache) : Prop :=
  (c.theatreData.isSome ∨ c.practitionerListData.isSome) ∧ c.theatresByDay = none

instance (c : LocalCache) : Decidable (migrationPre c) := by
  unfold migrationPre
  infer_instance

theorem migrationPre_iff (c : LocalCache) :
    migrationPre c
      ↔ ((c.theatreData.isSome || c.practitionerListData.isSome)
          && c.theatresByDay.isNone) = true := by
  simp [migrationPre, Option.isNone_iff_eq_none]

theorem bucket_fun_eq {α : Type} (today : Day) (o : Option (List α)) :
    (fun day => (day, if decide (day = today) && o.isSome then o.getD [] else []))
      = (fun day => (day, if day = today then o.getD [] else [])) := by
  funext d
  by_cases hd : d = today <;> cases o <;> simp [hd]

/-- Field-level description of a migration run whose precondition holds. -/
theorem migrate_fields_of_pre (today : Day) (c : LocalCache)
    (h : migrationPre c) :
    (migrateToWeeklyStructure today c).theatresByDay
      = some (getAllDays.map (fun day => (day, if day = today then c.theatreData.getD [] else [])))
    ∧ (migrateToWeeklyStructure today c).practitionersByDay
      = some (getAllDays.map (fun day =>
          (day, if day = today then c.practitionerListData.getD [] else [])))
    ∧ (migrateToWeeklyStructure today c).theatreData = c.theatreData
    ∧ (migrateToWeeklyStructure today c).practitionerListData = c.practitionerListData
    ∧ (c.theatreData.isSome
        → (migrateToWeeklyStructure today c).theatreData_legacy = c.theatreData)
    ∧ (c.practitionerListData.isSome
        → (migrateToWeeklyStructure today c).practitionerListData_legacy
            = c.practitionerListData) := by
  have hb := (migrationPre_iff c).mp h
  unfold migrateToWeeklyStructure
  rw [if_pos hb]
  cases ht : c.theatreData <;> cases hp : c.practitionerListData <;>
    simp [ht, hp] at hb ⊢

/-- A migration run whose precondition fails changes nothing. -/
theorem migrate_noop_of_not_pre (today : Day) (c : LocalCache)
    (h : ¬ migrationPre c) :
    migrateToWeeklyStructure today c = c := by
  have hb : ¬ (((c.theatreData.isSome || c.practitionerListData.isSome)
      && c.theatresByDay.isNone) = true) :=
    fun hb => h ((migrationPre_iff c).mpr hb)
  unfold migrateToWeeklyStructure
  rw [if_neg hb]

/-- C5: when a legacy flat key exists and the day-partitioned key does
not, the migrator writes day-partitioned structures whose bucket for the
current wall-clock day holds all legacy records and whose other buckets
are empty, keeps the original legacy keys, and copies each present legacy
key to a key with the _legacy suffix; when the precondition fails it
changes nothing. -/
theorem c5_migration_shape_and_retention (today : Day) (c : LocalCache) :
    (migrationPre c →
      (migrateToWeeklyStructure today c).theatresByDay
        = some (getAllDays.map (fun day => (day, if day = today then c.theatreData.getD [] else [])))
      ∧ (migrateToWeeklyStructure today c).practitionersByDay
        = some (getAllDays.map (fun day =>
            (day, if day = today then c.practitionerListData.getD [] else [])))
      ∧ (migrateToWeeklyStructure today c).theatreData = c.theatreData
      ∧ (migrateToWeeklyStructure today c).practitionerListData = c.practitionerListData
      ∧ (c.theatreData.isSome
          → (migrateToWeeklyStructure today c).theatreData_legacy = c.theatreData)
      ∧ (c.practitionerListData.isSome
          → (migrateToWeeklyStructure today c).practitionerListData_legacy
              = c.practitionerListData))
    ∧ (¬ migrationPre c → migrateToWeeklyStructure today c = c) :=
  ⟨migrate_fields_of_pre today c, migrate_noop_of_not_pre today c⟩

def samplePractitioner : Practitioner := ⟨"M Varghese", "17:30", false, false⟩

/-- A cache holding only legacy flat data, as before the first migration. -/
def legacyCache : LocalCache :=
  { emptyCache with theatreData := some [sampleTheatreA],
                    practitionerListData := some [samplePractitioner] }

theorem c5_migration_shape_and_retention_witness :
    migrationPre legacyCache
    ∧ (migrateToWeeklyStructure Day.wednesday legacyCache).theatresByDay
        = some [(Day.monday, []), (Day.tuesday, []), (Day.wednesday, [sampleTheatreA]),
                (Day.thursday, []), (Day.friday, []), (Day.saturday, []), (Day.sunday, [])]
    ∧ (migrateToWeeklyStructure Day.wednesday legacyCache).theatreData_legacy
        = some [sampleTheatreA]
    ∧ (migrateToWeeklyStructure Day.wednesday legacyCache).practitionerListData_legacy
        = some [samplePractitioner] := by
  have h := (c5_migration_shape_and_retention Day.wednesday legacyCache).1 (by decide)
  refine ⟨by decide, ?_, ?_, ?_⟩
  · rw [h.1]
    decide
  · rw [h.2.2.2.2.1 (by decide)]
    decide
  · rw [h.2.2.2.2.2 (by decide)]
    decide

/-- C6: the migrator is idempotent: running it a second time, at any later
wall-clock day, leaves the cache with exactly the contents the first run
produced, because a first run that migrated leaves the day-partitioned key
present, which falsifies the precondition of every later run, and a first
run that was a no-op leaves the precondition as it was. -/
theorem c6_migration_idempotent (t1 t2 : Day) (c : LocalCache) :
    migrateToWeeklyStructure t2 (migrateToWeeklyStructure t1 c)
      = migrateToWeeklyStructure t1 c := by
  by_cases h : migrationPre c
  · have h2 : ¬ migrationPre (migrateToWeeklyStructure t1 c) := by
      intro hpre
      have hnone := hpre.2
      have hsome := (migrate_fields_of_pre t1 c h).1
      rw [hnone] at hsome
      exact Option.noConfusion hsome
    exact migrate_noop_of_not_pre t2 _ h2
  · rw [migrate_noop_of_not_pre t1 c h, migrate_noop_of_not_pre t2 c h]

/-- An import payload as consumed by StorageService.importAllData: every
recognized top-level key, each possibly absent. -/
structure ImportPayload where
  theatresByDay : Option (List (Day × List Theatre))
  practitionersByDay : Option (List (Day × List Practitioner))
  rosterDatesByDay : Option (List (Day × Option String))
  selectedDay : Option Day
  theatres : Option (List Theatre)
  practitionerList : Option (List Practitioner)
  theme : Option String
  highlightSettings : Option HighlightSettings
deriving DecidableEq, Repr

/-- JS truthiness of an optional theme string: present and nonempty. -/
def themeTruthy : Option String → Bool
  | none => false
  | some s => !(s == "")

/-- StorageService.importAllData (src/services/storageService.js), local
persistence part: a payload with both day-partitioned collection keys is
stored as is (plus roster dates and selected day when present); otherwise
a payload with both legacy flat keys is converted, assigning the legacy
records to the current day; otherwise the collection keys are left alone.
In every case a present theme or highlightSettings key is then persisted. -/
def importAllData (today : Day) (d : ImportPayload) (c : LocalCache) : LocalCache :=
  let c1 :=
    if d.theatresByDay.isSome && d.practitionersByDay.isSome then
      let ca := { c with theatresByDay := d.theatresByDay,
                         practitionersByDay := d.practitionersByDay }
      let cb := if d.rosterDatesByDay.isSome
                then { ca with rosterDatesByDay := d.rosterDatesByDay } else ca
      if d.selectedDay.isSome then { cb with selectedDay := d.selectedDay } else cb
    else if d.theatres.isSome && d.practitionerList.isSome then
      let theatresByDay := getAllDays.map (fun day =>
        (day, if day = today then d.theatres.getD [] else []))
      let practitionersByDay := getAllDays.map (fun day =>
        (day, if day = today then d.practitionerList.getD [] else []))
      { c with theatresByDay := some theatresByDay,
               practitionersByDay := some practitionersByDay,
               selectedDay := some today }
    else c
  let c2 := if themeTruthy d.theme then { c1 with theme := d.theme } else c1
  if d.highlightSettings.isSome
  then { c2 with highlightSettings := d.highlightSettings } else c2

/-- A payload is of a recognized shape when it carries both
day-partitioned collection keys or both legacy flat collection keys. -/
def recognizedShape (d : ImportPayload) : Prop :=
  (d.theatresByDay.isSome ∧ d.practitionersByDay.isSome)
  ∨ (d.theatres.isSome ∧ d.practitionerList.isSome)

instance (d : ImportPayload) : Decidable (recognizedShape d) := by
  unfold recognizedShape
  infer_instance

/-- A payload of no recognized shape that still carries a theme value. -/
def themeOnlyPayload : ImportPayload :=
  { theatresByDay := none, practitionersByDay := none, rosterDatesByDay := none,
    selectedDay := none, theatres := none, practitionerList := none,
    theme := some "light", highlightSettings := none }

/-- C9 counterexample: a payload of no recognized shape carrying only a
theme value is not rejected by importAllData; the theme is persisted into
a previously empty cache, so partial state from an unrecognized file does
reach the store. -/
theorem c9_counterexample :
    (importAllData Day.monday themeOnlyPayload emptyCache).theme = some "light"
    ∧ emptyCache.theme = none := by
  constructor
  · rfl
  · rfl

/-- C9 amended: importAllData performs no shape validation and never
fails: for a payload of no recognized shape it leaves every collection key
of the cache unchanged, but a present theme or highlightSettings value is
still persisted; rejection of corrupt files with a descriptive message
happens in the upload UI before importAllData is called. -/
theorem c9_amended_no_rejection_settings_still_written (today : Day)
    (d : ImportPayload) (c : LocalCache) (hshape : ¬ recognizedShape d) :
    (importAllData today d c).theatresByDay = c.theatresByDay
    ∧ (importAllData today d c).practitionersByDay = c.practitionersByDay
    ∧ (importAllData today d c).rosterDatesByDay = c.rosterDatesByDay
    ∧ (importAllData today d c).selectedDay = c.selectedDay
    ∧ (importAllData today d c).theme
        = (if themeTruthy d.theme then d.theme else c.theme)
    ∧ (importAllData today d c).highlightSettings
        = (if d.highlightSettings.isSome then d.highlightSettings
           else c.highlightSettings) := by
  have hb1 : ¬ ((d.theatresByDay.isSome && d.practitionersByDay.isSome) = true) := by
    intro hb
    exact hshape (Or.inl (by simpa using hb))
  have hb2 : ¬ ((d.theatres.isSome && d.practitionerList.isSome) = true) := by
    intro hb
    exact hshape (Or.inr (by simpa using hb))
  unfold importAllData
  rw [if_neg hb1, if_neg hb2]
  by_cases h1 : themeTruthy d.theme <;> by_cases h2 : d.highlightSettings.isSome <;>
    simp [h1, h2]

theorem c9_amended_witness :
    (importAllData Day.monday themeOnlyPayload emptyCache).theatresByDay = none
    ∧ (importAllData Day.monday themeOnlyPayload emptyCache).theme = some "light"
    ∧ (importAllData Day.monday themeOnlyPayload emptyCache).highlightSettings = none := by
  have h := c9_amended_no_rejection_settings_still_written Day.monday
    themeOnlyPayload emptyCache (by decide)
  refine ⟨?_, ?_, ?_⟩
  · rw [h.1]
    decide
  · rw [h.2.2.2.2.1]
    decide
  · rw [h.2.2.2.2.2]
    decide

end Coordinator
